import Mathlib

/-!
Shallow embedding of the order-fulfillment engine of the ElectricityShop_Go
backend.

Sources embedded here:
- `internal/domain/entities` (`part_007`, `part_008`): `Product`, `Cart`,
  `CartItem`, `Order`, `OrderItem`, `Payment`, `Shipment`, the three status
  enumerations, and the business-logic methods `Product.CanOrder`,
  `Cart.IsEmpty`, `Order.CanBeCancelled`, `Order.CanBeShipped`.
- `internal/application/handlers/order_command_handler.go`: the command
  handlers `handleCreateOrder`, `handleCreateOrderFromCart`,
  `handleUpdateOrderStatus`, `handleCancelOrder`, `handleProcessPayment`,
  `handleUpdatePaymentStatus`, `handleCreateShipment`,
  `handleUpdateShipmentStatus`, and the `Handle` dispatcher.
- `internal/infrastructure/database/repositories`: the repository operations
  the handlers invoke, modelled as operations on an in-memory `AppState`.
  `OrderRepository.Update` is GORM `db.Save`, i.e. a full-record replace;
  `OrderRepository.UpdateStatus` and `ProductRepository.UpdateStock` are
  single-column row updates; `CartRepository.GetByUserID` creates a fresh
  empty cart when the user has none.

Modelling conventions: `shopspring/decimal` values are exact decimals, so
money is `Rat`; Go `int` is `Int`; UUIDs are `Nat` identifiers with stores
handing out fresh ids from a counter; `time.Now()` is a `Nat` clock read from
the state; fields no claim touches (currency, notes, address snapshots, order
number, gateway payload, tracking numbers) are omitted.  Each handler returns
the state as mutated up to the point of return (Go mutates through the
repositories as it goes, so an error return does not undo earlier writes),
an optional business error, and a trace of externally visible effects
(rows persisted, stock written, events published) in program order.
-/

namespace ElectricityShop

/-- `entities.OrderStatus` (part_008, lines 128-137). -/
inductive OrderStatus where
  | pending
  | confirmed
  | processing
  | shipped
  | delivered
  | cancelled
  | refunded
deriving DecidableEq

/-- `entities.PaymentStatus` (part_008, lines 139-147). -/
inductive PaymentStatus where
  | pending
  | processing
  | completed
  | failed
  | refunded
  | cancelled
deriving DecidableEq

/-- `entities.ShippingStatus` (part_008, lines 159-167). -/
inductive ShippingStatus where
  | pending
  | preparing
  | shipped
  | inTransit
  | delivered
  | returned
deriving DecidableEq

/-- `entities.Product` (part_007): the fields the order engine reads. -/
structure Product where
  id : Nat
  name : String
  sku : String
  price : Rat
  stock : Int
  isActive : Bool
deriving DecidableEq

/-- `Product.CanOrder` (part_007, lines 81-83):
`p.IsActive && p.Stock >= quantity && quantity > 0`. -/
def canOrder (p : Product) (quantity : Int) : Bool :=
  p.isActive && decide (quantity ≤ p.stock) && decide (0 < quantity)

/-- `entities.Address`: only identity and ownership are consulted. -/
structure Address where
  id : Nat
  userId : Nat
deriving DecidableEq

/-- `entities.CartItem` (part_008): the fields the order engine reads. -/
structure CartItem where
  productId : Nat
  quantity : Int
deriving DecidableEq

/-- `entities.Cart` (part_008). -/
structure Cart where
  id : Nat
  userId : Nat
  items : List CartItem
deriving DecidableEq

/-- `Cart.IsEmpty` (part_008, lines 239-241): `len(c.Items) == 0`. -/
def cartIsEmpty (c : Cart) : Bool :=
  c.items.length == 0

/-- `entities.OrderItem` (part_008, lines 74-89). -/
structure OrderItem where
  productId : Nat
  productName : String
  productSKU : String
  quantity : Int
  unitPrice : Rat
  total : Rat
deriving DecidableEq

/-- `entities.Shipment` (part_008): the fields `handleCreateShipment` sets. -/
structure Shipment where
  orderId : Nat
  status : ShippingStatus
deriving DecidableEq

/-- `entities.Order` (part_008, lines 42-71). -/
structure Order where
  id : Nat
  userId : Nat
  status : OrderStatus
  paymentStatus : PaymentStatus
  shippingStatus : ShippingStatus
  subtotal : Rat
  taxAmount : Rat
  shippingAmount : Rat
  discountAmount : Rat
  total : Rat
  items : List OrderItem
  shipments : List Shipment
  shippedAt : Option Nat
  deliveredAt : Option Nat
  cancelledAt : Option Nat
deriving DecidableEq

/-- `Order.CanBeCancelled` (part_008, lines 243-245):
status is pending or confirmed. -/
def canBeCancelled (o : Order) : Bool :=
  match o.status with
  | .pending => true
  | .confirmed => true
  | _ => false

/-- `Order.CanBeShipped` (part_008, lines 247-249):
status processing and paymentStatus completed. -/
def canBeShipped (o : Order) : Bool :=
  decide (o.status = .processing) && decide (o.paymentStatus = .completed)

/-- `entities.Payment` (part_008, lines 92-108). -/
structure Payment where
  id : Nat
  orderId : Nat
  amount : Rat
  status : PaymentStatus
  processedAt : Option Nat
deriving DecidableEq

/-- The persistent store behind the repositories, plus the id counters that
stand in for UUID generation and a clock that stands in for `time.Now()`. -/
structure AppState where
  users : List Nat
  addresses : List Address
  products : List Product
  carts : List Cart
  orders : List Order
  payments : List Payment
  nextOrderId : Nat
  nextPaymentId : Nat
  nextCartId : Nat
  now : Nat
deriving DecidableEq

/-- `UserRepository.GetByID`: the handler only checks existence. -/
def findUser (s : AppState) (id : Nat) : Option Nat :=
  s.users.find? (fun u => u == id)

/-- `AddressRepository.GetByID`. -/
def findAddress (s : AppState) (id : Nat) : Option Address :=
  s.addresses.find? (fun a => a.id == id)

/-- `ProductRepository.GetByID`. -/
def findProduct (s : AppState) (id : Nat) : Option Product :=
  s.products.find? (fun p => p.id == id)

/-- `OrderRepository.GetByID`. -/
def findOrder (s : AppState) (id : Nat) : Option Order :=
  s.orders.find? (fun o => o.id == id)

/-- `PaymentRepository.GetByID`. -/
def findPayment (s : AppState) (id : Nat) : Option Payment :=
  s.payments.find? (fun p => p.id == id)

/-- `CartRepository.GetByUserID` lookup part (cart_repository.go, line 70):
first cart row with the given user id. -/
def findCartByUser (s : AppState) (userId : Nat) : Option Cart :=
  s.carts.find? (fun c => c.userId == userId)

/-- `ProductRepository.UpdateStock` (product_repository.go, lines 202-218):
a blind single-column write `SET stock = quantity` on the product row. -/
def updateStock (s : AppState) (productId : Nat) (quantity : Int) : AppState :=
  { s with products :=
      s.products.map (fun p => if p.id == productId then { p with stock := quantity } else p) }

/-- `OrderRepository.Create` (address_repository.go, lines 170-178):
inserts the row; the fresh id stands in for the generated UUID. -/
def createOrder (s : AppState) (o : Order) : AppState :=
  { s with orders := s.orders ++ [o], nextOrderId := s.nextOrderId + 1 }

/-- `OrderRepository.Update` (address_repository.go, lines 229-234): GORM
`db.Save`, a full-record replace of the row with the given id. -/
def saveOrder (s : AppState) (o : Order) : AppState :=
  { s with orders := s.orders.map (fun x => if x.id == o.id then o else x) }

/-- `OrderRepository.UpdateStatus` (address_repository.go, lines 293-308):
single-column write of the status field on the order row. -/
def setOrderStatusRow (s : AppState) (orderId : Nat) (st : OrderStatus) : AppState :=
  { s with orders :=
      s.orders.map (fun o => if o.id == orderId then { o with status := st } else o) }

/-- `PaymentRepository.Create`: inserts the row with a fresh id. -/
def createPayment (s : AppState) (p : Payment) : AppState :=
  { s with payments := s.payments ++ [p], nextPaymentId := s.nextPaymentId + 1 }

/-- `PaymentRepository.Update`: full-record replace of the payment row. -/
def savePayment (s : AppState) (p : Payment) : AppState :=
  { s with payments := s.payments.map (fun x => if x.id == p.id then p else x) }

/-- `CartRepository.ClearItems` (cart_repository.go, lines 184-193):
deletes every cart item row of the cart. -/
def clearCartItems (s : AppState) (cartId : Nat) : AppState :=
  { s with carts := s.carts.map (fun c => if c.id == cartId then { c with items := [] } else c) }

/-- The business errors the embedded handlers return (`pkg/errors`).
`insufficientStock` carries the product name the handler puts in the
details string (`"Insufficient stock for product <name>"`). -/
inductive Err where
  | userNotFound
  | addressNotFound
  | forbidden
  | productNotFound
  | insufficientStock (productName : String)
  | cartEmpty
  | orderNotFound
  | paymentNotFound
  | orderCannotBeCancelled
  | orderCannotBeShipped
  | paymentFailed
deriving DecidableEq

/-- Externally visible effects of a handler run, in program order:
repository writes that create durable rows, stock writes, and published
domain events. -/
inductive Effect where
  | orderPersisted (orderId : Nat)
  | stockWritten (productId : Nat) (newStock : Int)
  | orderCreatedEvent (orderId : Nat)
  | cartClearedEvent (cartId : Nat)
  | orderStatusChangedEvent (orderId : Nat) (oldStatus newStatus : OrderStatus)
  | orderCancelledEvent (orderId : Nat)
  | paymentProcessedEvent (paymentId : Nat)
deriving DecidableEq

/-- Result of one handler invocation: the state as mutated up to the point
of return (error returns do not undo earlier repository writes), the
business error if any, and the effect trace. -/
structure HResult where
  state : AppState
  err : Option Err
  trace : List Effect
deriving DecidableEq

/-- `commands.CreateOrderItemCommand`. -/
structure CreateOrderItemCommand where
  productId : Nat
  quantity : Int
deriving DecidableEq

/-- `commands.CreateOrderCommand`: the fields `handleCreateOrder` reads. -/
structure CreateOrderCommand where
  userId : Nat
  items : List CreateOrderItemCommand
  shippingAddressId : Nat
  billingAddressId : Nat
deriving DecidableEq

/-- The item-validation loop of `handleCreateOrder`
(order_command_handler.go, lines 106-132): resolve each product, reject the
first line whose product is missing (repository not-found error) or fails
`CanOrder` (`ErrInsufficientStock` naming the product), otherwise snapshot
name/SKU/price, append the priced line and accumulate the subtotal. -/
def buildOrderItems (s : AppState) (items : List CreateOrderItemCommand)
    (acc : List OrderItem) (subtotal : Rat) : Except Err (List OrderItem × Rat) :=
  match items with
  | [] => .ok (acc, subtotal)
  | item :: rest =>
    match findProduct s item.productId with
    | none => .error .productNotFound
    | some p =>
      if canOrder p item.quantity then
        let itemTotal := p.price * (item.quantity : Rat)
        buildOrderItems s rest
          (acc ++ [{ productId := p.id, productName := p.name, productSKU := p.sku,
                     quantity := item.quantity, unitPrice := p.price, total := itemTotal }])
          (subtotal + itemTotal)
      else
        .error (.insufficientStock p.name)

/-- The stock-update loop of `handleCreateOrder`
(order_command_handler.go, lines 163-170): for each requested line, re-read
the product and blindly write `stock - quantity` through
`ProductRepository.UpdateStock`; a missing product or failed write is only
logged.  (The Go code ignores the re-read error; sequentially the product
is always present because validation already resolved it.) -/
def applyStockUpdates (s : AppState) (items : List CreateOrderItemCommand)
    (tr : List Effect) : AppState × List Effect :=
  match items with
  | [] => (s, tr)
  | item :: rest =>
    match findProduct s item.productId with
    | none => applyStockUpdates s rest tr
    | some p =>
      let newStock := p.stock - item.quantity
      applyStockUpdates (updateStock s item.productId newStock) rest
        (tr ++ [.stockWritten item.productId newStock])

/-- The fixed flat tax rate of `handleCreateOrder`
(order_command_handler.go, line 135): 8 percent. -/
def taxRate : Rat := 8 / 100

/-- The order value `handleCreateOrder` builds and persists
(order_command_handler.go, lines 134-156): totals from the priced lines
(8 percent tax on the subtotal, zero shipping and discount), all three
statuses pending, the fresh id standing in for the generated UUID. -/
def newOrderOf (s : AppState) (cmd : CreateOrderCommand)
    (orderItems : List OrderItem) (subtotal : Rat) : Order :=
  let taxAmount := subtotal * taxRate
  let total := subtotal + taxAmount
  { id := s.nextOrderId, userId := cmd.userId,
    status := .pending, paymentStatus := .pending, shippingStatus := .pending,
    subtotal := subtotal, taxAmount := taxAmount,
    shippingAmount := 0, discountAmount := 0, total := total,
    items := orderItems, shipments := [],
    shippedAt := none, deliveredAt := none, cancelledAt := none }

/-- `handleCreateOrder` (order_command_handler.go, lines 80-187): verify
user, resolve both addresses and check ownership, validate and price every
line, compute totals (8 percent tax on the subtotal, zero shipping and
discount), persist the Order with all three statuses pending, then decrement
stock for each line, then publish `OrderCreated`. -/
def handleCreateOrder (s : AppState) (cmd : CreateOrderCommand) : HResult :=
  match findUser s cmd.userId with
  | none => ⟨s, some .userNotFound, []⟩
  | some _ =>
  match findAddress s cmd.shippingAddressId with
  | none => ⟨s, some .addressNotFound, []⟩
  | some shippingAddr =>
  match findAddress s cmd.billingAddressId with
  | none => ⟨s, some .addressNotFound, []⟩
  | some billingAddr =>
  if shippingAddr.userId ≠ cmd.userId ∨ billingAddr.userId ≠ cmd.userId then
    ⟨s, some .forbidden, []⟩
  else
    match buildOrderItems s cmd.items [] 0 with
    | .error e => ⟨s, some e, []⟩
    | .ok (orderItems, subtotal) =>
      let order := newOrderOf s cmd orderItems subtotal
      let s1 := createOrder s order
      let stepped := applyStockUpdates s1 cmd.items [.orderPersisted order.id]
      ⟨stepped.1, none, stepped.2 ++ [.orderCreatedEvent order.id]⟩

/-- `commands.CreateOrderFromCartCommand`: the fields the handler reads. -/
structure CreateOrderFromCartCommand where
  userId : Nat
  shippingAddressId : Nat
  billingAddressId : Nat
deriving DecidableEq

/-- The body of `handleCreateOrderFromCart` once the cart is fetched
(order_command_handler.go, lines 199-239): fail with `ErrCartEmpty` when the
cart has no items, otherwise delegate to `handleCreateOrder` with the cart's
lines; on success clear the cart's items and publish `CartCleared`. -/
def createOrderFromCartCore (s : AppState) (cart : Cart) (cmd : CreateOrderFromCartCommand) : HResult :=
  if cartIsEmpty cart then
    ⟨s, some .cartEmpty, []⟩
  else
    let items := cart.items.map (fun ci => CreateOrderItemCommand.mk ci.productId ci.quantity)
    let r := handleCreateOrder s ⟨cmd.userId, items, cmd.shippingAddressId, cmd.billingAddressId⟩
    match r.err with
    | some e => ⟨r.state, some e, r.trace⟩
    | none =>
      let s2 := clearCartItems r.state cart.id
      ⟨s2, none, r.trace ++ [.cartClearedEvent cart.id]⟩

/-- `handleCreateOrderFromCart` (order_command_handler.go, lines 190-240):
fetch the user's cart — `CartRepository.GetByUserID` creates a fresh empty
cart when the user has none (cart_repository.go, lines 72-83) — then run
the body above. -/
def handleCreateOrderFromCart (s : AppState) (cmd : CreateOrderFromCartCommand) : HResult :=
  match findCartByUser s cmd.userId with
  | some cart => createOrderFromCartCore s cart cmd
  | none =>
    let c : Cart := { id := s.nextCartId, userId := cmd.userId, items := [] }
    createOrderFromCartCore { s with carts := s.carts ++ [c], nextCartId := s.nextCartId + 1 } c cmd

/-- `commands.UpdateOrderStatusCommand`: the fields the handler reads. -/
structure UpdateOrderStatusCommand where
  orderId : Nat
  status : OrderStatus
deriving DecidableEq

/-- The timestamp-stamping switch of `handleUpdateOrderStatus`
(order_command_handler.go, lines 260-270), applied to the in-memory order
struct fetched before the status row update — note it does not touch the
struct's `status` field. -/
def stampTimestamps (o : Order) (target : OrderStatus) (now : Nat) : Order :=
  match target with
  | .shipped => { o with shippedAt := some now, shippingStatus := .shipped }
  | .delivered => { o with deliveredAt := some now, shippingStatus := .delivered }
  | .cancelled => { o with cancelledAt := some now }
  | _ => o

/-- `handleUpdateOrderStatus` (order_command_handler.go, lines 243-291):
fetch the order, write the new status through `UpdateStatus`, stamp the
timestamps on the in-memory struct (whose status field still holds the old
status), then full-record `Update` that struct — which writes the old status
back — and publish `OrderStatusChanged`. -/
def handleUpdateOrderStatus (s : AppState) (cmd : UpdateOrderStatusCommand) : HResult :=
  match findOrder s cmd.orderId with
  | none => ⟨s, some .orderNotFound, []⟩
  | some order =>
    let oldStatus := order.status
    let s1 := setOrderStatusRow s cmd.orderId cmd.status
    let stamped := stampTimestamps order cmd.status s.now
    let s2 := saveOrder s1 stamped
    ⟨s2, none, [.orderStatusChangedEvent cmd.orderId oldStatus cmd.status]⟩

/-- `commands.CancelOrderCommand`: the fields the handler reads. -/
structure CancelOrderCommand where
  orderId : Nat
  userId : Nat
deriving DecidableEq

/-- The stock-restoration loop of `handleCancelOrder`
(order_command_handler.go, lines 326-337): for each order line, re-read the
product (a missing product is logged and skipped) and blindly write
`stock + quantity` through `ProductRepository.UpdateStock`. -/
def restoreStock (s : AppState) (items : List OrderItem)
    (tr : List Effect) : AppState × List Effect :=
  match items with
  | [] => (s, tr)
  | item :: rest =>
    match findProduct s item.productId with
    | none => restoreStock s rest tr
    | some p =>
      let newStock := p.stock + item.quantity
      restoreStock (updateStock s item.productId newStock) rest
        (tr ++ [.stockWritten item.productId newStock])

/-- `handleCancelOrder` (order_command_handler.go, lines 294-354): fetch the
order, verify ownership, require `CanBeCancelled`, delegate the status change
to `handleUpdateOrderStatus` with target `cancelled`, restore each line's
stock, publish `OrderCancelled`. -/
def handleCancelOrder (s : AppState) (cmd : CancelOrderCommand) : HResult :=
  match findOrder s cmd.orderId with
  | none => ⟨s, some .orderNotFound, []⟩
  | some order =>
    if order.userId ≠ cmd.userId then
      ⟨s, some .forbidden, []⟩
    else if canBeCancelled order then
      let r := handleUpdateOrderStatus s ⟨cmd.orderId, .cancelled⟩
      match r.err with
      | some e => ⟨r.state, some e, r.trace⟩
      | none =>
        let stepped := restoreStock r.state order.items r.trace
        ⟨stepped.1, none, stepped.2 ++ [.orderCancelledEvent cmd.orderId]⟩
    else
      ⟨s, some .orderCannotBeCancelled, []⟩

/-- `commands.ProcessPaymentCommand`: the fields the handler reads. -/
structure ProcessPaymentCommand where
  orderId : Nat
  amount : Rat
deriving DecidableEq

/-- The payment row `handleProcessPayment` creates
(order_command_handler.go, lines 372-380): status processing, no processed
timestamp yet; the fresh id stands in for the generated UUID. -/
def processingPaymentOf (s : AppState) (cmd : ProcessPaymentCommand) : Payment :=
  { id := s.nextPaymentId, orderId := cmd.orderId, amount := cmd.amount,
    status := .processing, processedAt := none }

/-- The same row after the handler unconditionally marks it completed with
a processed timestamp (order_command_handler.go, lines 386-390). -/
def completedPaymentOf (s : AppState) (cmd : ProcessPaymentCommand) : Payment :=
  { processingPaymentOf s cmd with status := PaymentStatus.completed, processedAt := some s.now }

/-- `handleProcessPayment` (order_command_handler.go, lines 357-419): fetch
the order, fail with `ErrPaymentFailed` when the amount differs from the
order total, create a Payment with status processing, then unconditionally
mark it completed with a processed timestamp (the gateway is a TODO), update
it, set the order's payment status to completed via full-record `Update`,
and publish `PaymentProcessed`. -/
def handleProcessPayment (s : AppState) (cmd : ProcessPaymentCommand) : HResult :=
  match findOrder s cmd.orderId with
  | none => ⟨s, some .orderNotFound, []⟩
  | some order =>
    if cmd.amount ≠ order.total then
      ⟨s, some .paymentFailed, []⟩
    else
      let payment := processingPaymentOf s cmd
      let s1 := createPayment s payment
      let completed := completedPaymentOf s cmd
      let s2 := savePayment s1 completed
      let s3 := saveOrder s2 { order with paymentStatus := PaymentStatus.completed }
      ⟨s3, none, [.paymentProcessedEvent payment.id]⟩

/-- `commands.UpdatePaymentStatusCommand`: the fields the handler reads. -/
structure UpdatePaymentStatusCommand where
  paymentId : Nat
  status : PaymentStatus
deriving DecidableEq

/-- `handleUpdatePaymentStatus` (order_command_handler.go, lines 422-459):
fetch the payment, overwrite its status (stamping `processedAt` when the new
status is completed), update it, then set the owning order's payment status
to the same value via full-record `Update`. -/
def handleUpdatePaymentStatus (s : AppState) (cmd : UpdatePaymentStatusCommand) : HResult :=
  match findPayment s cmd.paymentId with
  | none => ⟨s, some .paymentNotFound, []⟩
  | some payment =>
    let stamp : Option Nat :=
      if cmd.status = PaymentStatus.completed then some s.now else payment.processedAt
    let p1 : Payment := { payment with status := cmd.status, processedAt := stamp }
    let s1 := savePayment s p1
    match findOrder s1 p1.orderId with
    | none => ⟨s1, some .orderNotFound, []⟩
    | some order =>
      let s2 := saveOrder s1 { order with paymentStatus := cmd.status }
      ⟨s2, none, []⟩

/-- `commands.CreateShipmentCommand`: the fields the handler reads. -/
structure CreateShipmentCommand where
  orderId : Nat
deriving DecidableEq

/-- `handleCreateShipment` (order_command_handler.go, lines 462-500): fetch
the order, require `CanBeShipped`, append a shipment with status preparing to
the order and full-record `Update` it. -/
def handleCreateShipment (s : AppState) (cmd : CreateShipmentCommand) : HResult :=
  match findOrder s cmd.orderId with
  | none => ⟨s, some .orderNotFound, []⟩
  | some order =>
    if canBeShipped order then
      let shipment : Shipment := { orderId := cmd.orderId, status := .preparing }
      let s1 := saveOrder s { order with shipments := order.shipments ++ [shipment] }
      ⟨s1, none, []⟩
    else
      ⟨s, some .orderCannotBeShipped, []⟩

/-- `handleUpdateShipmentStatus` (order_command_handler.go, lines 503-511):
a placeholder that only logs. -/
def handleUpdateShipmentStatus (s : AppState) : HResult :=
  ⟨s, none, []⟩

/-- The typed commands `OrderCommandHandler.Handle` dispatches on
(order_command_handler.go, lines 56-77). -/
inductive Command where
  | createOrder (cmd : CreateOrderCommand)
  | createOrderFromCart (cmd : CreateOrderFromCartCommand)
  | updateOrderStatus (cmd : UpdateOrderStatusCommand)
  | cancelOrder (cmd : CancelOrderCommand)
  | processPayment (cmd : ProcessPaymentCommand)
  | updatePaymentStatus (cmd : UpdatePaymentStatusCommand)
  | createShipment (cmd : CreateShipmentCommand)
  | updateShipmentStatus
deriving DecidableEq

/-- `OrderCommandHandler.Handle` (order_command_handler.go, lines 56-77). -/
def handle (s : AppState) : Command → HResult
  | .createOrder cmd => handleCreateOrder s cmd
  | .createOrderFromCart cmd => handleCreateOrderFromCart s cmd
  | .updateOrderStatus cmd => handleUpdateOrderStatus s cmd
  | .cancelOrder cmd => handleCancelOrder s cmd
  | .processPayment cmd => handleProcessPayment s cmd
  | .updatePaymentStatus cmd => handleUpdatePaymentStatus s cmd
  | .createShipment cmd => handleCreateShipment s cmd
  | .updateShipmentStatus => handleUpdateShipmentStatus s

/-- Run a sequence of commands through the dispatcher, carrying the state
across invocations (errors leave the state as mutated so far, as in Go). -/
def runAll (s : AppState) : List Command → AppState
  | [] => s
  | c :: rest => runAll (handle s c).state rest

/-! ### Concrete fixtures used by witnesses and counterexamples -/

/-- An active product with 5 units in stock. -/
def prodA : Product :=
  { id := 10, name := "A", sku := "SKU-A", price := 5, stock := 5, isActive := true }

/-- An active product with 3 units in stock. -/
def prodB : Product :=
  { id := 11, name := "B", sku := "SKU-B", price := 10, stock := 3, isActive := true }

/-- A base store: one user (7) with two addresses, two products, nothing
else. -/
def baseState : AppState :=
  { users := [7], addresses := [⟨1, 7⟩, ⟨2, 7⟩], products := [prodA, prodB],
    carts := [], orders := [], payments := [],
    nextOrderId := 0, nextPaymentId := 0, nextCartId := 0, now := 100 }

/-- A single-line order command: one unit of product 10. -/
def cmdOneLine : CreateOrderCommand :=
  { userId := 7, items := [⟨10, 1⟩], shippingAddressId := 1, billingAddressId := 2 }

/-- A two-line order command whose second line exceeds product 11's stock. -/
def cmdOverstock : CreateOrderCommand :=
  { userId := 7, items := [⟨10, 1⟩, ⟨11, 1000⟩], shippingAddressId := 1, billingAddressId := 2 }

/-- Four fifths (0.80) as an explicit normalized fraction. -/
def ratTax : Rat := ⟨4, 5, by decide, by decide⟩

/-- Fifty-four fifths (10.80) as an explicit normalized fraction. -/
def ratTotal : Rat := ⟨54, 5, by decide, by decide⟩

/-- Nineteen point ninety-nine (19.99) as an explicit normalized fraction. -/
def ratWrong : Rat := ⟨1999, 100, by decide, by decide⟩

/-- A pending order of two units of product 10, owned by user 7, with
subtotal 10.00, tax 0.80 and total 10.80. -/
def pendingOrder : Order :=
  { id := 0, userId := 7, status := .pending, paymentStatus := .pending,
    shippingStatus := .pending, subtotal := 10, taxAmount := ratTax,
    shippingAmount := 0, discountAmount := 0, total := ratTotal,
    items := [{ productId := 10, productName := "A", productSKU := "SKU-A",
                quantity := 2, unitPrice := 5, total := 10 }],
    shipments := [], shippedAt := none, deliveredAt := none, cancelledAt := none }

/-- Store holding `pendingOrder` with product 10 already decremented to 3. -/
def cancelState : AppState :=
  { baseState with orders := [pendingOrder],
                   products := [{ prodA with stock := 3 }, prodB],
                   nextOrderId := 1 }

/-- A delivered order owned by user 7. -/
def deliveredOrder : Order :=
  { pendingOrder with status := .delivered }

/-- Store holding `deliveredOrder`. -/
def deliveredState : AppState :=
  { baseState with orders := [deliveredOrder], nextOrderId := 1 }

/-- `pendingOrder` with payment already completed. -/
def paidOrder : Order :=
  { pendingOrder with paymentStatus := PaymentStatus.completed }

/-- A completed payment of `paidOrder`'s total. -/
def completedPayment : Payment :=
  { id := 0, orderId := 0, amount := ratTotal, status := .completed, processedAt := some 90 }

/-- Store holding `paidOrder` together with its completed payment. -/
def paidState : AppState :=
  { baseState with orders := [paidOrder], payments := [completedPayment],
                   nextOrderId := 1, nextPaymentId := 1 }

/-- Store holding `pendingOrder`, not yet paid. -/
def unpaidState : AppState :=
  { baseState with orders := [pendingOrder], nextOrderId := 1 }

/-- Store in which user 7 has an empty cart. -/
def emptyCartState : AppState :=
  { baseState with carts := [{ id := 0, userId := 7, items := [] }], nextCartId := 1 }

/-! ### Trace predicates

These formalise the ordering language of the spec over a handler's effect
trace. -/

/-- The product ids of the stock writes in a trace, in trace order. -/
def stockWriteIds (tr : List Effect) : List Nat :=
  tr.filterMap (fun e =>
    match e with
    | .stockWritten pid _ => some pid
    | _ => none)

/-- Whether a trace contains a stock write. -/
def hasStockWrite (tr : List Effect) : Bool :=
  tr.any (fun e =>
    match e with
    | .stockWritten _ _ => true
    | _ => false)

/-- Spec §4.3 step 3-4 ordering, read on a trace: every stock write occurs
before every order persist (no stock write at or after a persist). -/
def stockWritesPrecedePersist : List Effect → Bool
  | [] => true
  | .orderPersisted _ :: rest => !hasStockWrite rest && stockWritesPrecedePersist rest
  | _ :: rest => stockWritesPrecedePersist rest

/-- The opposite ordering, read on a trace: scanning from the front, an
order persist is met before any stock write. -/
def persistPrecedesStockWrites : List Effect → Bool
  | [] => true
  | .stockWritten _ _ :: _ => false
  | .orderPersisted _ :: _ => true
  | _ :: rest => persistPrecedesStockWrites rest

/-- The product of the first requested line that resolves but fails
`CanOrder`, scanning in line order (the line `handleCreateOrder`'s
validation loop rejects, provided every earlier line resolves and passes). -/
def firstInsufficient (s : AppState) : List CreateOrderItemCommand → Option Product
  | [] => none
  | it :: rest =>
    match findProduct s it.productId with
    | none => none
    | some p => if canOrder p it.quantity then firstInsufficient s rest else some p

/-- Every requested line resolves to a product that passes `CanOrder`. -/
def allLinesOk (s : AppState) (items : List CreateOrderItemCommand) : Bool :=
  items.all (fun it =>
    match findProduct s it.productId with
    | some p => canOrder p it.quantity
    | none => false)

/-- Spec §3 Order invariant, plus the §4.2 pricing rules: the total
identity, the fixed flat tax on the subtotal, and each line's total. -/
def orderInvariant (o : Order) : Prop :=
  o.total = o.subtotal + o.taxAmount + o.shippingAmount - o.discountAmount ∧
  o.taxAmount = o.subtotal * taxRate ∧
  ∀ it ∈ o.items, it.total = it.unitPrice * (it.quantity : Rat)

instance (o : Order) : Decidable (orderInvariant o) := by
  unfold orderInvariant; infer_instance

/-- Every persisted order satisfies `orderInvariant`. -/
def stateInvariant (s : AppState) : Prop :=
  ∀ o ∈ s.orders, orderInvariant o

instance (s : AppState) : Decidable (stateInvariant s) := by
  unfold stateInvariant; infer_instance

/-- Number of completed payments recorded against an order. -/
def completedPaymentsFor (s : AppState) (orderId : Nat) : Nat :=
  (s.payments.filter (fun p => p.orderId == orderId && decide (p.status = PaymentStatus.completed))).length

/-! ### Interleaving model of two concurrent CreateOrder calls

Spec §5 requires all Reserve/Restore for one product to be serialized.  In
the source, `handleCreateOrder` touches the shared store through separate
repository calls with nothing serializing the sequence: each SQL statement
is atomic, but between statements another request can interleave.  A thread
below is one single-line `CreateOrder` request for the same product; its
atomic steps map to the handler like this:

- `validate`: `productRepo.GetByID` + `product.CanOrder`
  (order_command_handler.go, lines 110-117) — on failure the handler
  returns `ErrInsufficientStock`;
- `persist`: `orderRepo.Create` (line 159);
- `readDecr`: `productRepo.GetByID` in the stock loop (line 165);
- `writeDecr`: `productRepo.UpdateStock(stock_read - quantity)`
  (lines 166-167), a blind single-column write
  (product_repository.go, lines 202-218). -/

/-- Program counter of one in-flight single-line CreateOrder request. -/
inductive CoPc where
  | validate
  | persist
  | readDecr
  | writeDecr
  | done
  | failedInsufficient
deriving DecidableEq

/-- One in-flight request: its program counter, requested quantity, and
the stock value it read in the decrement loop. -/
structure CoThread where
  pc : CoPc
  quantity : Int
  seenStock : Int
deriving DecidableEq

/-- The shared rows both requests touch: the product row and the count of
persisted orders. -/
structure CoShared where
  stock : Int
  isActive : Bool
  ordersPersisted : Nat
deriving DecidableEq

/-- One atomic step of one request against the shared store, following the
handler's statement order (see the section comment for the line map). -/
def coStep (g : CoShared) (t : CoThread) : CoShared × CoThread :=
  match t.pc with
  | .validate =>
    if g.isActive && decide (t.quantity ≤ g.stock) && decide (0 < t.quantity) then
      (g, { t with pc := .persist })
    else
      (g, { t with pc := .failedInsufficient })
  | .persist => ({ g with ordersPersisted := g.ordersPersisted + 1 }, { t with pc := .readDecr })
  | .readDecr => (g, { t with pc := .writeDecr, seenStock := g.stock })
  | .writeDecr => ({ g with stock := t.seenStock - t.quantity }, { t with pc := .done })
  | .done => (g, t)
  | .failedInsufficient => (g, t)

/-- Two concurrent requests over the shared store. -/
structure CoConfig where
  shared : CoShared
  threadA : CoThread
  threadB : CoThread
deriving DecidableEq

/-- Run a schedule: `false` steps thread A, `true` steps thread B. -/
def coRun (cfg : CoConfig) : List Bool → CoConfig
  | [] => cfg
  | b :: rest =>
    if b then
      let p := coStep cfg.shared cfg.threadB
      coRun ⟨p.1, cfg.threadA, p.2⟩ rest
    else
      let p := coStep cfg.shared cfg.threadA
      coRun ⟨p.1, p.2, cfg.threadB⟩ rest

/-- Both requests ask for the last unit of an active product with stock 1. -/
def coInit : CoConfig :=
  ⟨{ stock := 1, isActive := true, ordersPersisted := 0 },
   { pc := .validate, quantity := 1, seenStock := 0 },
   { pc := .validate, quantity := 1, seenStock := 0 }⟩

/-- The interleaving in which both requests validate before either
decrements: A validates, B validates, A persists/reads/writes, then B
persists/reads/writes. -/
def coSchedule : List Bool :=
  [false, true, false, false, false, true, true, true]

/-! ### General lemmas -/

/-- `find?` commutes with a `map` whose function leaves the search predicate
unchanged (all the row-update maps here preserve the key they are searched
by). -/
theorem find?_map_key {α : Type} (f : α → α) (p : α → Bool)
    (hp : ∀ x, p (f x) = p x) :
    ∀ l : List α, (l.map f).find? p = (l.find? p).map f := by
  intro l
  induction l with
  | nil => rfl
  | cons x t ih =>
    simp only [List.map_cons, List.find?_cons]
    rw [hp x]
    cases hx : p x
    · simpa using ih
    · rfl

/-- `saveOrder` is a by-id replace, so lookups factor through it. -/
theorem findOrder_saveOrder (s : AppState) (o : Order) (i : Nat) :
    findOrder (saveOrder s o) i
      = (findOrder s i).map (fun x => if x.id == o.id then o else x) := by
  unfold findOrder saveOrder
  apply find?_map_key
  intro x
  by_cases h : x.id = o.id
  · simp [h]
  · simp [h]

/-- `setOrderStatusRow` preserves row ids, so lookups factor through it. -/
theorem findOrder_setOrderStatusRow (s : AppState) (oid : Nat) (st : OrderStatus) (i : Nat) :
    findOrder (setOrderStatusRow s oid st) i
      = (findOrder s i).map (fun o => if o.id == oid then { o with status := st } else o) := by
  unfold findOrder setOrderStatusRow
  apply find?_map_key
  intro x
  by_cases h : x.id = oid
  · simp [h]
  · simp [h]

/-- `updateStock` preserves row ids, so product lookups factor through it. -/
theorem findProduct_updateStock (s : AppState) (pid : Nat) (q : Int) (i : Nat) :
    findProduct (updateStock s pid q) i
      = (findProduct s i).map (fun p => if p.id == pid then { p with stock := q } else p) := by
  unfold findProduct updateStock
  apply find?_map_key
  intro x
  by_cases h : x.id = pid
  · simp [h]
  · simp [h]

/-- `clearCartItems` preserves user ids, so cart lookups factor through it. -/
theorem findCartByUser_clearCartItems (s : AppState) (cid : Nat) (uid : Nat) :
    findCartByUser (clearCartItems s cid) uid
      = (findCartByUser s uid).map (fun c => if c.id == cid then { c with items := [] } else c) := by
  unfold findCartByUser clearCartItems
  apply find?_map_key
  intro x
  by_cases h : x.id = cid <;> simp [h]

/-- The stock-update loop touches only the product rows: orders survive. -/
theorem applyStockUpdates_orders :
    ∀ (items : List CreateOrderItemCommand) (s : AppState) (tr : List Effect),
      (applyStockUpdates s items tr).1.orders = s.orders := by
  intro items
  induction items with
  | nil => intro s tr; rfl
  | cons it rest ih =>
    intro s tr
    unfold applyStockUpdates
    cases h : findProduct s it.productId with
    | none => simpa using ih s tr
    | some p => simpa using ih (updateStock s it.productId (p.stock - it.quantity)) _

/-- The stock-update loop touches only the product rows: carts survive. -/
theorem applyStockUpdates_carts :
    ∀ (items : List CreateOrderItemCommand) (s : AppState) (tr : List Effect),
      (applyStockUpdates s items tr).1.carts = s.carts := by
  intro items
  induction items with
  | nil => intro s tr; rfl
  | cons it rest ih =>
    intro s tr
    unfold applyStockUpdates
    cases h : findProduct s it.productId with
    | none => simpa using ih s tr
    | some p => simpa using ih (updateStock s it.productId (p.stock - it.quantity)) _

/-- The stock-restoration loop touches only the product rows: orders
survive. -/
theorem restoreStock_orders :
    ∀ (items : List OrderItem) (s : AppState) (tr : List Effect),
      (restoreStock s items tr).1.orders = s.orders := by
  intro items
  induction items with
  | nil => intro s tr; rfl
  | cons it rest ih =>
    intro s tr
    unfold restoreStock
    cases h : findProduct s it.productId with
    | none => simpa using ih s tr
    | some p => simpa using ih (updateStock s it.productId (p.stock + it.quantity)) _

/-- The stock-update loop only appends to the effect trace. -/
theorem applyStockUpdates_trace_mono :
    ∀ (items : List CreateOrderItemCommand) (s : AppState) (tr : List Effect),
      ∃ ws, (applyStockUpdates s items tr).2 = tr ++ ws := by
  intro items
  induction items with
  | nil => intro s tr; exact ⟨[], by simp [applyStockUpdates]⟩
  | cons it rest ih =>
    intro s tr
    unfold applyStockUpdates
    cases h : findProduct s it.productId with
    | none => simpa using ih s tr
    | some p =>
      obtain ⟨ws, hws⟩ := ih (updateStock s it.productId (p.stock - it.quantity))
        (tr ++ [.stockWritten it.productId (p.stock - it.quantity)])
      exact ⟨.stockWritten it.productId (p.stock - it.quantity) :: ws, by simpa using hws⟩

/-- Under the presence of every requested product, the stock-update loop
writes exactly one stock update per line, in line order. -/
theorem stockWriteIds_applyStockUpdates :
    ∀ (items : List CreateOrderItemCommand) (s : AppState) (tr : List Effect),
      (∀ it ∈ items, (findProduct s it.productId).isSome) →
      stockWriteIds ((applyStockUpdates s items tr).2)
        = stockWriteIds tr ++ items.map (fun it => it.productId) := by
  intro items
  induction items with
  | nil => intro s tr _; simp [applyStockUpdates]
  | cons it rest ih =>
    intro s tr hall
    have hhead := hall it (by simp)
    unfold applyStockUpdates
    cases h : findProduct s it.productId with
    | none => rw [h] at hhead; simp at hhead
    | some p =>
      have hrest : ∀ x ∈ rest, (findProduct (updateStock s it.productId (p.stock - it.quantity)) x.productId).isSome := by
        intro x hx
        rw [findProduct_updateStock]
        have := hall x (by simp [hx])
        cases hfx : findProduct s x.productId with
        | none => rw [hfx] at this; simp at this
        | some q => simp
      have := ih (updateStock s it.productId (p.stock - it.quantity))
        (tr ++ [.stockWritten it.productId (p.stock - it.quantity)]) hrest
      simp only [this]
      simp [stockWriteIds]

/-- `allLinesOk` implies every requested product resolves. -/
theorem allLinesOk_present (s : AppState) (items : List CreateOrderItemCommand)
    (h : allLinesOk s items = true) :
    ∀ it ∈ items, (findProduct s it.productId).isSome := by
  intro it hit
  have := (List.all_eq_true.mp h) it hit
  cases hf : findProduct s it.productId with
  | none => rw [hf] at this; simp at this
  | some p => simp

/-- When some line's product resolves but fails `CanOrder` (and every
earlier product resolves), the validation loop rejects with the insufficient
stock error naming the first such product, independent of the accumulator. -/
theorem buildOrderItems_error_insufficient (s : AppState) :
    ∀ (items : List CreateOrderItemCommand) (acc : List OrderItem) (sub : Rat) (p : Product),
      (∀ it ∈ items, (findProduct s it.productId).isSome) →
      firstInsufficient s items = some p →
      buildOrderItems s items acc sub = .error (.insufficientStock p.name) := by
  intro items
  induction items with
  | nil => intro acc sub p _ hfail; simp [firstInsufficient] at hfail
  | cons it rest ih =>
    intro acc sub p hall hfail
    have hhead := hall it (by simp)
    unfold buildOrderItems
    unfold firstInsufficient at hfail
    cases h : findProduct s it.productId with
    | none => rw [h] at hhead; simp at hhead
    | some q =>
      simp only [h] at hfail ⊢
      cases hc : canOrder q it.quantity with
      | true =>
        rw [hc, if_pos rfl] at hfail
        rw [if_pos rfl]
        exact ih _ _ p (fun x hx => hall x (by simp [hx])) hfail
      | false =>
        rw [hc, if_neg (by simp)] at hfail
        rw [if_neg (by simp)]
        cases hfail
        rfl

/-- When every line resolves and passes `CanOrder`, the validation loop
succeeds, independent of the accumulator. -/
theorem buildOrderItems_ok_of_allOk (s : AppState) :
    ∀ (items : List CreateOrderItemCommand) (acc : List OrderItem) (sub : Rat),
      allLinesOk s items = true →
      ∃ out, buildOrderItems s items acc sub = .ok out := by
  intro items
  induction items with
  | nil => intro acc sub _; exact ⟨(acc, sub), rfl⟩
  | cons it rest ih =>
    intro acc sub hok
    have hhead := (List.all_eq_true.mp hok) it (by simp)
    have hrest : allLinesOk s rest = true := by
      apply List.all_eq_true.mpr
      intro x hx
      exact (List.all_eq_true.mp hok) x (by simp [hx])
    unfold buildOrderItems
    cases h : findProduct s it.productId with
    | none => rw [h] at hhead; simp at hhead
    | some q =>
      simp only [h] at hhead
      simp only [h]
      rw [hhead, if_pos rfl]
      exact ih _ _ hrest

/-- Every line the validation loop prices carries
`total = unitPrice * quantity` (spec §3 OrderLine; the handler computes the
line total exactly this way). -/
theorem buildOrderItems_items_inv (s : AppState) :
    ∀ (items : List CreateOrderItemCommand) (acc : List OrderItem) (sub : Rat)
      (out : List OrderItem × Rat),
      buildOrderItems s items acc sub = .ok out →
      (∀ it ∈ acc, it.total = it.unitPrice * (it.quantity : Rat)) →
      ∀ it ∈ out.1, it.total = it.unitPrice * (it.quantity : Rat) := by
  intro items
  induction items with
  | nil =>
    intro acc sub out hok hacc
    simp only [buildOrderItems] at hok
    cases hok
    exact hacc
  | cons it rest ih =>
    intro acc sub out hok hacc
    unfold buildOrderItems at hok
    cases h : findProduct s it.productId with
    | none => rw [h] at hok; cases hok
    | some q =>
      simp only [h] at hok
      cases hc : canOrder q it.quantity with
      | false => rw [hc, if_neg (by simp)] at hok; cases hok
      | true =>
        rw [hc, if_pos rfl] at hok
        refine ih _ _ _ hok ?_
        intro x hx
        rcases List.mem_append.mp hx with hx1 | hx2
        · exact hacc x hx1
        · rcases List.mem_singleton.mp hx2 with rfl
          rfl

/-- In a valid invocation context (user exists, both addresses exist and
belong to the user), when some line's product resolves but fails `CanOrder`
(and every line's product resolves), `handleCreateOrder` returns the
insufficient-stock error naming the first failing product and leaves the
store exactly as it was: no order row, no stock write, no event. -/
theorem handleCreateOrder_insufficient (s : AppState) (cmd : CreateOrderCommand)
    (u : Nat) (sa ba : Address) (p : Product)
    (hu : findUser s cmd.userId = some u)
    (hsa : findAddress s cmd.shippingAddressId = some sa)
    (hba : findAddress s cmd.billingAddressId = some ba)
    (hso : sa.userId = cmd.userId) (hbo : ba.userId = cmd.userId)
    (hall : ∀ it ∈ cmd.items, (findProduct s it.productId).isSome)
    (hfail : firstInsufficient s cmd.items = some p) :
    handleCreateOrder s cmd = ⟨s, some (.insufficientStock p.name), []⟩ := by
  unfold handleCreateOrder
  simp only [hu, hsa, hba]
  rw [if_neg (fun hor => hor.elim (fun h1 => h1 hso) (fun h2 => h2 hbo))]
  rw [buildOrderItems_error_insufficient s cmd.items [] 0 p hall hfail]

/-- In a valid invocation context, when every line resolves and passes
`CanOrder`, `handleCreateOrder` succeeds: exactly one order row is appended,
the persist precedes every stock write in the effect trace, and the stock
writes are one per requested line, in line order. -/
theorem handleCreateOrder_success (s : AppState) (cmd : CreateOrderCommand)
    (u : Nat) (sa ba : Address)
    (hu : findUser s cmd.userId = some u)
    (hsa : findAddress s cmd.shippingAddressId = some sa)
    (hba : findAddress s cmd.billingAddressId = some ba)
    (hso : sa.userId = cmd.userId) (hbo : ba.userId = cmd.userId)
    (hok : allLinesOk s cmd.items = true) :
    (handleCreateOrder s cmd).err = none ∧
    (∃ o, (handleCreateOrder s cmd).state.orders = s.orders ++ [o] ∧
       o.status = .pending ∧ o.paymentStatus = .pending ∧ o.shippingStatus = .pending) ∧
    persistPrecedesStockWrites (handleCreateOrder s cmd).trace = true ∧
    stockWriteIds (handleCreateOrder s cmd).trace
      = cmd.items.map (fun it => it.productId) := by
  obtain ⟨out, hout⟩ := buildOrderItems_ok_of_allOk s cmd.items [] 0 hok
  obtain ⟨items, subtotal⟩ := out
  have hpres : ∀ it ∈ cmd.items, (findProduct s it.productId).isSome :=
    allLinesOk_present s cmd.items hok
  unfold handleCreateOrder
  simp only [hu, hsa, hba]
  rw [if_neg (fun hor => hor.elim (fun h1 => h1 hso) (fun h2 => h2 hbo))]
  simp only [hout]
  refine ⟨by trivial, ?_, ?_, ?_⟩
  · refine ⟨newOrderOf s cmd items subtotal, ?_, rfl, rfl, rfl⟩
    rw [applyStockUpdates_orders]
    rfl
  · obtain ⟨ws, hws⟩ := applyStockUpdates_trace_mono cmd.items
      (createOrder s (newOrderOf s cmd items subtotal))
      [.orderPersisted (newOrderOf s cmd items subtotal).id]
    simp only [hws]
    rfl
  · have hstep : stockWriteIds ((applyStockUpdates
        (createOrder s (newOrderOf s cmd items subtotal))
        cmd.items [.orderPersisted (newOrderOf s cmd items subtotal).id]).2)
        = stockWriteIds [.orderPersisted (newOrderOf s cmd items subtotal).id]
            ++ cmd.items.map (fun it => it.productId) := by
      apply stockWriteIds_applyStockUpdates
      exact hpres
    simp only [stockWriteIds, List.filterMap_append] at hstep ⊢
    simp [hstep]

/-- `handleCreateOrder` never touches the cart store. -/
theorem handleCreateOrder_carts (s : AppState) (cmd : CreateOrderCommand) :
    (handleCreateOrder s cmd).state.carts = s.carts := by
  unfold handleCreateOrder
  split
  · rfl
  · split
    · rfl
    · split
      · rfl
      · split
        · rfl
        · split
          · rfl
          · rw [applyStockUpdates_carts]
            rfl

/-- Stamping timestamps never changes the order id. -/
theorem stampTimestamps_id (o : Order) (t : OrderStatus) (n : Nat) :
    (stampTimestamps o t n).id = o.id := by
  cases t <;> rfl

/-- Stamping timestamps never changes the in-memory status field — this is
exactly why the final full-record save of `handleUpdateOrderStatus` writes
the old status back. -/
theorem stampTimestamps_status (o : Order) (t : OrderStatus) (n : Nat) :
    (stampTimestamps o t n).status = o.status := by
  cases t <;> rfl

/-- `handleUpdateOrderStatus` on an existing order: it never rejects, and
the stored row afterwards is the fetched order with timestamps stamped —
in particular with the OLD status, because the trailing full-record
`Update` overwrites the status column `UpdateStatus` had just written. -/
theorem handleUpdateOrderStatus_behavior (s : AppState) (cmd : UpdateOrderStatusCommand)
    (order : Order) (h : findOrder s cmd.orderId = some order) :
    (handleUpdateOrderStatus s cmd).err = none ∧
    findOrder (handleUpdateOrderStatus s cmd).state cmd.orderId
      = some (stampTimestamps order cmd.status s.now) := by
  have h2 : s.orders.find? (fun o => o.id == cmd.orderId) = some order := h
  have hid : order.id = cmd.orderId := by simpa using List.find?_some h2
  have hbeq : (order.id == cmd.orderId) = true := by simpa using hid
  unfold handleUpdateOrderStatus
  simp only [h]
  refine ⟨by trivial, ?_⟩
  rw [findOrder_saveOrder, findOrder_setOrderStatusRow, h]
  simp [hbeq, hid, stampTimestamps_id]

/-- Payment lookups see through payment-row creation. -/
theorem findOrder_createPayment (s : AppState) (p : Payment) (i : Nat) :
    findOrder (createPayment s p) i = findOrder s i := rfl

/-- Payment-row replacement does not touch the order store. -/
theorem findOrder_savePayment (s : AppState) (p : Payment) (i : Nat) :
    findOrder (savePayment s p) i = findOrder s i := rfl

/-- Replacing a fresh id in an appended payment list only rewrites the
appended row. -/
theorem map_replace_append_fresh (l : List Payment) (p c : Payment)
    (hpc : c.id = p.id) (hfresh : ∀ x ∈ l, x.id ≠ p.id) :
    (l ++ [p]).map (fun x => if x.id == c.id then c else x) = l ++ [c] := by
  rw [List.map_append]
  congr 1
  · conv_rhs => rw [← List.map_id l]
    apply List.map_congr_left
    intro x hx
    simp only [id]
    rw [if_neg]
    simp only [beq_iff_eq, hpc]
    exact hfresh x hx
  · simp [hpc]

theorem handleProcessPayment_success (s : AppState) (cmd : ProcessPaymentCommand)
    (order : Order)
    (h : findOrder s cmd.orderId = some order)
    (ha : cmd.amount = order.total)
    (hfresh : ∀ p ∈ s.payments, p.id ≠ s.nextPaymentId) :
    (handleProcessPayment s cmd).err = none ∧
    (handleProcessPayment s cmd).state.payments
      = s.payments ++ [completedPaymentOf s cmd] ∧
    findOrder (handleProcessPayment s cmd).state cmd.orderId
      = some { order with paymentStatus := PaymentStatus.completed } := by
  have h2 : s.orders.find? (fun o => o.id == cmd.orderId) = some order := h
  have hid : order.id = cmd.orderId := by simpa using List.find?_some h2
  have hbeq : (order.id == cmd.orderId) = true := by simpa using hid
  unfold handleProcessPayment
  simp only [h]
  rw [if_neg (fun hn => hn ha)]
  refine ⟨by trivial, ?_, ?_⟩
  · show ((s.payments ++ [processingPaymentOf s cmd]).map
        (fun x => if x.id == (completedPaymentOf s cmd).id then completedPaymentOf s cmd else x))
      = s.payments ++ [completedPaymentOf s cmd]
    exact map_replace_append_fresh s.payments (processingPaymentOf s cmd)
      (completedPaymentOf s cmd) rfl hfresh
  · rw [findOrder_saveOrder]
    have hfind : findOrder (savePayment (createPayment s (processingPaymentOf s cmd))
        (completedPaymentOf s cmd)) cmd.orderId = some order := h
    rw [hfind]
    simp

/-! ### Preservation of the totals invariant (spec §3 / §8) -/

/-- Stamping timestamps touches no money field and no line. -/
theorem orderInvariant_stampTimestamps (o : Order) (t : OrderStatus) (n : Nat)
    (h : orderInvariant o) : orderInvariant (stampTimestamps o t n) := by
  cases t <;> exact h

/-- The invariant only reads the order store. -/
theorem stateInvariant_of_orders_eq (s1 s2 : AppState) (h : s2.orders = s1.orders)
    (hs : stateInvariant s1) : stateInvariant s2 := by
  intro o ho
  exact hs o (h ▸ ho)

/-- Replacing a row with an invariant-satisfying order preserves the state
invariant. -/
theorem stateInvariant_saveOrder (s : AppState) (o : Order)
    (hs : stateInvariant s) (ho : orderInvariant o) :
    stateInvariant (saveOrder s o) := by
  intro x hx
  simp only [saveOrder] at hx
  rcases List.mem_map.mp hx with ⟨y, hy, hfy⟩
  by_cases hc : (y.id == o.id) = true
  · rw [if_pos hc] at hfy
    rw [← hfy]
    exact ho
  · rw [if_neg hc] at hfy
    rw [← hfy]
    exact hs y hy

/-- A status-column write touches no money field and no line. -/
theorem stateInvariant_setOrderStatusRow (s : AppState) (oid : Nat) (st : OrderStatus)
    (hs : stateInvariant s) : stateInvariant (setOrderStatusRow s oid st) := by
  intro x hx
  simp only [setOrderStatusRow] at hx
  rcases List.mem_map.mp hx with ⟨y, hy, hfy⟩
  by_cases hc : (y.id == oid) = true
  · rw [if_pos hc] at hfy
    rw [← hfy]
    exact hs y hy
  · rw [if_neg hc] at hfy
    rw [← hfy]
    exact hs y hy

/-- The order `handleCreateOrder` builds satisfies the totals invariant:
total = subtotal + tax + 0 − 0 with tax = subtotal × 8 %, and every priced
line carries total = unitPrice × quantity. -/
theorem orderInvariant_newOrderOf (s : AppState) (cmd : CreateOrderCommand)
    (its : List OrderItem) (sub : Rat)
    (hits : ∀ it ∈ its, it.total = it.unitPrice * (it.quantity : Rat)) :
    orderInvariant (newOrderOf s cmd its sub) := by
  refine ⟨?_, rfl, hits⟩
  show sub + sub * taxRate = sub + sub * taxRate + 0 - 0
  ring

/-- `handleCreateOrder` preserves the state invariant. -/
theorem stateInvariant_handleCreateOrder (s : AppState) (cmd : CreateOrderCommand)
    (hs : stateInvariant s) : stateInvariant (handleCreateOrder s cmd).state := by
  unfold handleCreateOrder
  split
  · exact hs
  · split
    · exact hs
    · split
      · exact hs
      · split
        · exact hs
        · split
          · exact hs
          · next orderItems subtotal heq =>
            apply stateInvariant_of_orders_eq (createOrder s (newOrderOf s cmd orderItems subtotal))
            · exact applyStockUpdates_orders _ _ _
            · intro x hx
              rcases List.mem_append.mp hx with hx1 | hx2
              · exact hs x hx1
              · rcases List.mem_singleton.mp hx2 with rfl
                exact orderInvariant_newOrderOf s cmd orderItems subtotal
                  (buildOrderItems_items_inv s cmd.items [] 0 _ heq (by intro it hit; cases hit))

/-- `handleUpdateOrderStatus` preserves the state invariant. -/
theorem stateInvariant_handleUpdateOrderStatus (s : AppState) (cmd : UpdateOrderStatusCommand)
    (hs : stateInvariant s) : stateInvariant (handleUpdateOrderStatus s cmd).state := by
  unfold handleUpdateOrderStatus
  split
  · exact hs
  · next order heq =>
    have heq2 : s.orders.find? (fun o => o.id == cmd.orderId) = some order := heq
    have hmem : order ∈ s.orders := List.mem_of_find?_eq_some heq2
    exact stateInvariant_saveOrder _ _
      (stateInvariant_setOrderStatusRow _ _ _ hs)
      (orderInvariant_stampTimestamps _ _ _ (hs order hmem))

/-- `handleCancelOrder` preserves the state invariant. -/
theorem stateInvariant_handleCancelOrder (s : AppState) (cmd : CancelOrderCommand)
    (hs : stateInvariant s) : stateInvariant (handleCancelOrder s cmd).state := by
  unfold handleCancelOrder
  split
  · exact hs
  · next order heq =>
    split
    · exact hs
    · split
      · dsimp only
        split
        · exact stateInvariant_handleUpdateOrderStatus s _ hs
        · apply stateInvariant_of_orders_eq
            (handleUpdateOrderStatus s ⟨cmd.orderId, .cancelled⟩).state
          · exact restoreStock_orders _ _ _
          · exact stateInvariant_handleUpdateOrderStatus s _ hs
      · exact hs

/-- `handleProcessPayment` preserves the state invariant. -/
theorem stateInvariant_handleProcessPayment (s : AppState) (cmd : ProcessPaymentCommand)
    (hs : stateInvariant s) : stateInvariant (handleProcessPayment s cmd).state := by
  unfold handleProcessPayment
  split
  · exact hs
  · next order heq =>
    split
    · exact hs
    · have heq2 : s.orders.find? (fun o => o.id == cmd.orderId) = some order := heq
      have hmem : order ∈ s.orders := List.mem_of_find?_eq_some heq2
      apply stateInvariant_saveOrder
      · exact stateInvariant_of_orders_eq s _ rfl hs
      · exact hs order hmem

/-- `handleUpdatePaymentStatus` preserves the state invariant. -/
theorem stateInvariant_handleUpdatePaymentStatus (s : AppState) (cmd : UpdatePaymentStatusCommand)
    (hs : stateInvariant s) : stateInvariant (handleUpdatePaymentStatus s cmd).state := by
  unfold handleUpdatePaymentStatus
  split
  · exact hs
  · next payment heq =>
    dsimp only
    rw [findOrder_savePayment]
    cases heq2 : findOrder s payment.orderId with
    | none =>
      simp only [heq2]
      exact stateInvariant_of_orders_eq s _ rfl hs
    | some order =>
      simp only [heq2]
      have heq3 : s.orders.find? (fun o => o.id == payment.orderId) = some order := heq2
      have hmem : order ∈ s.orders := List.mem_of_find?_eq_some heq3
      apply stateInvariant_saveOrder
      · exact stateInvariant_of_orders_eq s _ rfl hs
      · exact hs order hmem

/-- `handleCreateShipment` preserves the state invariant. -/
theorem stateInvariant_handleCreateShipment (s : AppState) (cmd : CreateShipmentCommand)
    (hs : stateInvariant s) : stateInvariant (handleCreateShipment s cmd).state := by
  unfold handleCreateShipment
  split
  · exact hs
  · next order heq =>
    split
    · have heq2 : s.orders.find? (fun o => o.id == cmd.orderId) = some order := heq
      have hmem : order ∈ s.orders := List.mem_of_find?_eq_some heq2
      exact stateInvariant_saveOrder _ _ hs (hs order hmem)
    · exact hs

/-- The cart-order body preserves the state invariant. -/
theorem stateInvariant_createOrderFromCartCore (s : AppState) (cart : Cart)
    (cmd : CreateOrderFromCartCommand)
    (hs : stateInvariant s) : stateInvariant (createOrderFromCartCore s cart cmd).state := by
  unfold createOrderFromCartCore
  split
  · exact hs
  · dsimp only
    split
    · exact stateInvariant_handleCreateOrder s _ hs
    · refine stateInvariant_of_orders_eq (handleCreateOrder s _).state _ rfl ?_
      exact stateInvariant_handleCreateOrder s _ hs

/-- `handleCreateOrderFromCart` preserves the state invariant. -/
theorem stateInvariant_handleCreateOrderFromCart (s : AppState)
    (cmd : CreateOrderFromCartCommand)
    (hs : stateInvariant s) : stateInvariant (handleCreateOrderFromCart s cmd).state := by
  unfold handleCreateOrderFromCart
  split
  · exact stateInvariant_createOrderFromCartCore s _ cmd hs
  · apply stateInvariant_createOrderFromCartCore
    exact stateInvariant_of_orders_eq s _ rfl hs

/-- Every dispatched command preserves the state invariant. -/
theorem stateInvariant_handle (s : AppState) (c : Command)
    (hs : stateInvariant s) : stateInvariant (handle s c).state := by
  cases c with
  | createOrder cmd => exact stateInvariant_handleCreateOrder s cmd hs
  | createOrderFromCart cmd => exact stateInvariant_handleCreateOrderFromCart s cmd hs
  | updateOrderStatus cmd => exact stateInvariant_handleUpdateOrderStatus s cmd hs
  | cancelOrder cmd => exact stateInvariant_handleCancelOrder s cmd hs
  | processPayment cmd => exact stateInvariant_handleProcessPayment s cmd hs
  | updatePaymentStatus cmd => exact stateInvariant_handleUpdatePaymentStatus s cmd hs
  | createShipment cmd => exact stateInvariant_handleCreateShipment s cmd hs
  | updateShipmentStatus => exact hs

/-! ### The claims -/

/-- C1 counterexample.  The claim says stock is decremented (reserved) for
each line BEFORE the Order is persisted.  On a concrete one-line order that
succeeds, the effect trace of `handleCreateOrder` is
[orderPersisted, stockWritten, orderCreatedEvent]: the order row is written
first and the stock decrement follows it, so the stock writes do not precede
the persist. -/
theorem C1_counterexample :
    (handleCreateOrder baseState cmdOneLine).err = none ∧
    hasStockWrite (handleCreateOrder baseState cmdOneLine).trace = true ∧
    (handleCreateOrder baseState cmdOneLine).trace
      = [.orderPersisted 0, .stockWritten 10 4, .orderCreatedEvent 0] ∧
    stockWritesPrecedePersist (handleCreateOrder baseState cmdOneLine).trace = false := by
  decide

/-- C1 (amended).  In every CreateOrder invocation with a valid context
(user exists, both addresses exist and belong to the user): on the first
line whose product resolves but fails CanOrder (all line products
resolving), InsufficientStock naming that product is returned with no Order
persisted and no stock changed; and when every line validates, the call
succeeds, exactly one Order is appended (status/payment/shipping all
pending), the Order persist precedes every stock write, and stock is
decremented once per requested line in line order — after, not before, the
persist. -/
theorem C1_amended (s : AppState) (cmd : CreateOrderCommand)
    (u : Nat) (sa ba : Address)
    (hu : findUser s cmd.userId = some u)
    (hsa : findAddress s cmd.shippingAddressId = some sa)
    (hba : findAddress s cmd.billingAddressId = some ba)
    (hso : sa.userId = cmd.userId) (hbo : ba.userId = cmd.userId) :
    (∀ p, (∀ it ∈ cmd.items, (findProduct s it.productId).isSome) →
       firstInsufficient s cmd.items = some p →
       handleCreateOrder s cmd = ⟨s, some (.insufficientStock p.name), []⟩) ∧
    (allLinesOk s cmd.items = true →
       (handleCreateOrder s cmd).err = none ∧
       (∃ o, (handleCreateOrder s cmd).state.orders = s.orders ++ [o] ∧
          o.status = .pending ∧ o.paymentStatus = .pending ∧ o.shippingStatus = .pending) ∧
       persistPrecedesStockWrites (handleCreateOrder s cmd).trace = true ∧
       stockWriteIds (handleCreateOrder s cmd).trace
         = cmd.items.map (fun it => it.productId)) :=
  ⟨fun p hall hfail =>
      handleCreateOrder_insufficient s cmd u sa ba p hu hsa hba hso hbo hall hfail,
   fun hok => handleCreateOrder_success s cmd u sa ba hu hsa hba hso hbo hok⟩

/-- C1 witness: the success half of the amended claim at the concrete
one-line order. -/
theorem C1_witness :
    (handleCreateOrder baseState cmdOneLine).err = none ∧
    (∃ o, (handleCreateOrder baseState cmdOneLine).state.orders = baseState.orders ++ [o] ∧
       o.status = .pending ∧ o.paymentStatus = .pending ∧ o.shippingStatus = .pending) ∧
    persistPrecedesStockWrites (handleCreateOrder baseState cmdOneLine).trace = true ∧
    stockWriteIds (handleCreateOrder baseState cmdOneLine).trace
      = cmdOneLine.items.map (fun it => it.productId) :=
  (C1_amended baseState cmdOneLine 7 ⟨1, 7⟩ ⟨2, 7⟩ (by decide) (by decide) (by decide)
    (by decide) (by decide)).2 (by decide)

/-- C2.  In every valid-context CreateOrder invocation in which some
requested line cannot be satisfied from current stock (all line products
resolving, some line failing CanOrder), the call returns InsufficientStock
naming the first failing product, and the resulting state is EXACTLY the
pre-call state: no Order persisted and every product's stock unchanged
(net zero). -/
theorem C2_insufficient_rollback (s : AppState) (cmd : CreateOrderCommand)
    (u : Nat) (sa ba : Address) (p : Product)
    (hu : findUser s cmd.userId = some u)
    (hsa : findAddress s cmd.shippingAddressId = some sa)
    (hba : findAddress s cmd.billingAddressId = some ba)
    (hso : sa.userId = cmd.userId) (hbo : ba.userId = cmd.userId)
    (hall : ∀ it ∈ cmd.items, (findProduct s it.productId).isSome)
    (hfail : firstInsufficient s cmd.items = some p) :
    handleCreateOrder s cmd = ⟨s, some (.insufficientStock p.name), []⟩ :=
  handleCreateOrder_insufficient s cmd u sa ba p hu hsa hba hso hbo hall hfail

/-- C2 witness: the spec's own scenario — product 10 in stock, product 11
requested at quantity 1000 against stock 3 — returns InsufficientStock
naming product B and leaves the store untouched. -/
theorem C2_witness :
    handleCreateOrder baseState cmdOverstock
      = ⟨baseState, some (.insufficientStock prodB.name), []⟩ :=
  C2_insufficient_rollback baseState cmdOverstock 7 ⟨1, 7⟩ ⟨2, 7⟩ prodB
    (by decide) (by decide) (by decide) (by decide) (by decide) (by decide) (by decide)

/-- C3 counterexample.  The claim says a non-forward transition is rejected
with InvalidStatusTransition and leaves the order unchanged.  On a concrete
delivered order, requesting the backward transition delivered → pending is
accepted (no error is returned at all), refuting the claimed validation. -/
theorem C3_counterexample :
    (handleUpdateOrderStatus deliveredState ⟨0, .pending⟩).err = none ∧
    (findOrder (handleUpdateOrderStatus deliveredState ⟨0, .pending⟩).state 0).map Order.status
      = some OrderStatus.delivered := by
  decide

/-- C3 (amended).  UpdateOrderStatus performs no transition validation: for
every existing order ANY requested target status is accepted (no error).
It stamps the timestamp matching the target status
(shippedAt/deliveredAt/cancelledAt, plus the shipping status for
shipped/delivered); but the trailing full-record update persists the
in-memory order whose status field still holds the old status, so the
stored status is unchanged by the call. -/
theorem C3_amended (s : AppState) (cmd : UpdateOrderStatusCommand) (order : Order)
    (h : findOrder s cmd.orderId = some order) :
    (handleUpdateOrderStatus s cmd).err = none ∧
    ∃ o2, findOrder (handleUpdateOrderStatus s cmd).state cmd.orderId = some o2 ∧
      o2.status = order.status ∧
      (cmd.status = .shipped → o2.shippedAt = some s.now ∧ o2.shippingStatus = .shipped) ∧
      (cmd.status = .delivered → o2.deliveredAt = some s.now ∧ o2.shippingStatus = .delivered) ∧
      (cmd.status = .cancelled → o2.cancelledAt = some s.now) := by
  obtain ⟨herr, hfind⟩ := handleUpdateOrderStatus_behavior s cmd order h
  refine ⟨herr, stampTimestamps order cmd.status s.now, hfind,
    stampTimestamps_status order cmd.status s.now, ?_, ?_, ?_⟩
  · intro ht; rw [ht]; exact ⟨rfl, rfl⟩
  · intro ht; rw [ht]; exact ⟨rfl, rfl⟩
  · intro ht; rw [ht]; exact rfl

/-- C3 witness: requesting shipped on the concrete delivered order is
accepted, stamps shippedAt, and leaves the stored status delivered. -/
theorem C3_witness :
    (handleUpdateOrderStatus deliveredState ⟨0, .shipped⟩).err = none ∧
    ∃ o2, findOrder (handleUpdateOrderStatus deliveredState ⟨0, .shipped⟩).state 0 = some o2 ∧
      o2.status = deliveredOrder.status ∧
      (OrderStatus.shipped = OrderStatus.shipped →
        o2.shippedAt = some deliveredState.now ∧ o2.shippingStatus = .shipped) ∧
      (OrderStatus.shipped = OrderStatus.delivered →
        o2.deliveredAt = some deliveredState.now ∧ o2.shippingStatus = .delivered) ∧
      (OrderStatus.shipped = OrderStatus.cancelled → o2.cancelledAt = some deliveredState.now) :=
  C3_amended deliveredState ⟨0, .shipped⟩ deliveredOrder rfl

/-- C4.  The claim (and spec §4.3) says a second CancelOrder attempt fails
with OrderCannotBeCancelled and stock is restored exactly once, because the
first cancellation persists status=cancelled.  In the code the status
written by `UpdateStatus` is immediately overwritten by the full-record
`Update` with the fetched struct's OLD status, so the order never persists
as cancelled: on a concrete pending order (two units of product 10, stock
3), the first cancel succeeds and restores stock to 5 but leaves the stored
status pending (with cancelledAt stamped), and a second cancel by the same
owner SUCCEEDS again and restores stock a second time, to 7. -/
theorem C4_cancel_twice :
    (handleCancelOrder cancelState ⟨0, 7⟩).err = none ∧
    (findOrder (handleCancelOrder cancelState ⟨0, 7⟩).state 0).map Order.status
      = some OrderStatus.pending ∧
    (findOrder (handleCancelOrder cancelState ⟨0, 7⟩).state 0).map Order.cancelledAt
      = some (some 100) ∧
    (findProduct (handleCancelOrder cancelState ⟨0, 7⟩).state 10).map Product.stock
      = some 5 ∧
    (handleCancelOrder (handleCancelOrder cancelState ⟨0, 7⟩).state ⟨0, 7⟩).err = none ∧
    (findProduct (handleCancelOrder (handleCancelOrder cancelState ⟨0, 7⟩).state ⟨0, 7⟩).state 10).map Product.stock
      = some 7 := by
  decide

/-- C5 counterexample.  The claim says ProcessPayment against an order whose
paymentStatus is already completed does not create or complete a second
Payment (a uniqueness check is made first).  On a concrete order that is
already completed (one completed payment on record), ProcessPayment with the
matching amount succeeds and the store then holds TWO completed payments for
the order: no uniqueness check exists in the handler. -/
theorem C5_counterexample :
    (findOrder paidState 0).map Order.paymentStatus = some PaymentStatus.completed ∧
    completedPaymentsFor paidState 0 = 1 ∧
    (handleProcessPayment paidState ⟨0, ratTotal⟩).err = none ∧
    completedPaymentsFor (handleProcessPayment paidState ⟨0, ratTotal⟩).state 0 = 2 := by
  decide

/-- C5 (amended).  No uniqueness check against existing completed payments
is made: for every order — including one whose paymentStatus is already
completed — ProcessPayment with the matching amount (and a fresh payment id)
succeeds and records one MORE completed Payment for that order, so two
completed payments can coexist. -/
theorem C5_amended (s : AppState) (cmd : ProcessPaymentCommand) (order : Order)
    (h : findOrder s cmd.orderId = some order)
    (_hcomp : order.paymentStatus = PaymentStatus.completed)
    (ha : cmd.amount = order.total)
    (hfresh : ∀ p ∈ s.payments, p.id ≠ s.nextPaymentId) :
    (handleProcessPayment s cmd).err = none ∧
    completedPaymentsFor (handleProcessPayment s cmd).state cmd.orderId
      = completedPaymentsFor s cmd.orderId + 1 := by
  obtain ⟨herr, hpay, _⟩ := handleProcessPayment_success s cmd order h ha hfresh
  refine ⟨herr, ?_⟩
  unfold completedPaymentsFor
  rw [hpay, List.filter_append]
  simp [completedPaymentOf, processingPaymentOf]

/-- C5 witness: the amended claim at the concrete already-paid order. -/
theorem C5_witness :
    (handleProcessPayment paidState ⟨0, ratTotal⟩).err = none ∧
    completedPaymentsFor (handleProcessPayment paidState ⟨0, ratTotal⟩).state 0
      = completedPaymentsFor paidState 0 + 1 :=
  C5_amended paidState ⟨0, ratTotal⟩ paidOrder rfl rfl rfl (by decide)

/-- C6.  For every ProcessPayment invocation on an existing order where the
supplied amount differs from the order's total, the handler fails with
PaymentFailed and returns the store EXACTLY as it was: no Payment row is
created or completed and the order's payment status is unchanged. -/
theorem C6_amount_mismatch (s : AppState) (cmd : ProcessPaymentCommand) (order : Order)
    (h : findOrder s cmd.orderId = some order)
    (hne : cmd.amount ≠ order.total) :
    handleProcessPayment s cmd = ⟨s, some .paymentFailed, []⟩ := by
  unfold handleProcessPayment
  simp only [h]
  rw [if_pos hne]

/-- C6 witness: the spec's scenario — amount 19.99 against total 10.80
(same shape as 21.60: any mismatch) fails with PaymentFailed and the store
is untouched. -/
theorem C6_witness :
    handleProcessPayment unpaidState ⟨0, ratWrong⟩
      = ⟨unpaidState, some .paymentFailed, []⟩ :=
  C6_amount_mismatch unpaidState ⟨0, ratWrong⟩ pendingOrder rfl (by decide)

/-- C7.  Starting from any store whose orders all satisfy the totals
invariant (total = subtotal + tax + shipping − discount, tax = subtotal × 8
percent, every line total = unitPrice × quantity), running ANY sequence of
commands through the dispatcher preserves it: every persisted order — in
particular every order CreateOrder produces — satisfies the invariant at
every reachable state.  Over exact rationals the identity is exact, hence
it holds to two decimal places. -/
theorem C7_total_invariant (s : AppState) (cmds : List Command)
    (hs : stateInvariant s) : stateInvariant (runAll s cmds) := by
  induction cmds generalizing s with
  | nil => exact hs
  | cons c rest ih => exact ih (handle s c).state (stateInvariant_handle s c hs)

/-- C7 witness: from the concrete base store (no orders, invariant holds
vacuously), a CreateOrder run preserves the invariant. -/
theorem C7_witness :
    stateInvariant baseState ∧
    stateInvariant (runAll baseState [.createOrder cmdOneLine]) :=
  ⟨by decide, C7_total_invariant baseState [.createOrder cmdOneLine] (by decide)⟩

/-- C8 counterexample.  The claim says that with two concurrent CreateOrder
calls each requesting the last unit of a product with stock 1, exactly one
succeeds and the other observes InsufficientStock.  Running the interleaved
model of `handleCreateOrder` (validate → persist → read stock → blind
write, each repository statement atomic, nothing serialized — see `coStep`)
under the schedule that lets both requests validate first: BOTH calls run
to `done`, two orders are persisted, the final stock is −1, and neither
observes InsufficientStock. -/
theorem C8_counterexample :
    (coRun coInit coSchedule).threadA.pc = CoPc.done ∧
    (coRun coInit coSchedule).threadB.pc = CoPc.done ∧
    (coRun coInit coSchedule).shared.ordersPersisted = 2 ∧
    (coRun coInit coSchedule).shared.stock = -1 ∧
    ¬((coRun coInit coSchedule).threadA.pc = CoPc.failedInsufficient ∨
      (coRun coInit coSchedule).threadB.pc = CoPc.failedInsufficient) := by
  decide

/-- C8 (amended).  Stock read-modify-write is NOT serialized: there exists
an interleaving of two concurrent CreateOrder calls, each requesting the
last unit of a product with stock 1, in which both calls succeed, both
orders are persisted, and the stock goes negative (the product is
oversold). -/
theorem C8_amended :
    ∃ schedule : List Bool,
      (coRun coInit schedule).threadA.pc = CoPc.done ∧
      (coRun coInit schedule).threadB.pc = CoPc.done ∧
      (coRun coInit schedule).shared.ordersPersisted = 2 ∧
      (coRun coInit schedule).shared.stock < 0 :=
  ⟨coSchedule, by decide⟩

/-- C9.  For every user whose cart exists: an empty cart makes
CreateOrderFromCart fail with CartEmpty returning the store EXACTLY as it
was (no order, cart untouched); when the delegated CreateOrder fails, the
wrapper propagates the error and the cart store is untouched; and when it
succeeds the wrapper succeeds and the user's cart is stored cleared. -/
theorem C9_cart_lifecycle (s : AppState) (cmd : CreateOrderFromCartCommand) (cart : Cart)
    (hc : findCartByUser s cmd.userId = some cart) :
    (cart.items = [] → handleCreateOrderFromCart s cmd = ⟨s, some .cartEmpty, []⟩) ∧
    (∀ e, cart.items ≠ [] →
       (handleCreateOrder s ⟨cmd.userId,
          cart.items.map (fun ci => CreateOrderItemCommand.mk ci.productId ci.quantity),
          cmd.shippingAddressId, cmd.billingAddressId⟩).err = some e →
       (handleCreateOrderFromCart s cmd).err = some e ∧
       (handleCreateOrderFromCart s cmd).state.carts = s.carts) ∧
    (cart.items ≠ [] →
       (handleCreateOrder s ⟨cmd.userId,
          cart.items.map (fun ci => CreateOrderItemCommand.mk ci.productId ci.quantity),
          cmd.shippingAddressId, cmd.billingAddressId⟩).err = none →
       (handleCreateOrderFromCart s cmd).err = none ∧
       findCartByUser (handleCreateOrderFromCart s cmd).state cmd.userId
         = some { cart with items := [] }) := by
  unfold handleCreateOrderFromCart
  simp only [hc]
  refine ⟨?_, ?_, ?_⟩
  · intro he
    unfold createOrderFromCartCore
    rw [if_pos (by simp [cartIsEmpty, he])]
  · intro e hne herr
    unfold createOrderFromCartCore
    rw [if_neg (by simp [cartIsEmpty, List.length_eq_zero, hne])]
    dsimp only
    simp only [herr]
    exact ⟨by trivial, handleCreateOrder_carts s _⟩
  · intro hne herr
    unfold createOrderFromCartCore
    rw [if_neg (by simp [cartIsEmpty, List.length_eq_zero, hne])]
    dsimp only
    simp only [herr]
    refine ⟨by trivial, ?_⟩
    rw [findCartByUser_clearCartItems]
    have hsame : findCartByUser (handleCreateOrder s ⟨cmd.userId,
        cart.items.map (fun ci => CreateOrderItemCommand.mk ci.productId ci.quantity),
        cmd.shippingAddressId, cmd.billingAddressId⟩).state cmd.userId
        = findCartByUser s cmd.userId := by
      unfold findCartByUser
      rw [handleCreateOrder_carts]
    rw [hsame, hc]
    simp

/-- C9 witness: the empty-cart leg at the concrete store in which user 7
has a cart with no lines. -/
theorem C9_witness :
    handleCreateOrderFromCart emptyCartState ⟨7, 1, 2⟩
      = ⟨emptyCartState, some .cartEmpty, []⟩ :=
  (C9_cart_lifecycle emptyCartState ⟨7, 1, 2⟩ { id := 0, userId := 7, items := [] } rfl).1 rfl

/-- C10 (implicit claim).  For every ProcessPayment invocation in which the
order exists, the amount equals the order's total, and the payment id is
fresh: the call unconditionally succeeds, the single Payment row it appends
is already in status completed with a processed timestamp, and the order is
stored with paymentStatus completed — no gateway outcome is consulted, so no
failed-payment outcome is reachable through this handler. -/
theorem C10_unconditional_completion (s : AppState) (cmd : ProcessPaymentCommand)
    (order : Order)
    (h : findOrder s cmd.orderId = some order)
    (ha : cmd.amount = order.total)
    (hfresh : ∀ p ∈ s.payments, p.id ≠ s.nextPaymentId) :
    (handleProcessPayment s cmd).err = none ∧
    (handleProcessPayment s cmd).state.payments = s.payments ++ [completedPaymentOf s cmd] ∧
    (completedPaymentOf s cmd).status = PaymentStatus.completed ∧
    (completedPaymentOf s cmd).processedAt = some s.now ∧
    findOrder (handleProcessPayment s cmd).state cmd.orderId
      = some { order with paymentStatus := PaymentStatus.completed } := by
  obtain ⟨herr, hpay, hord⟩ := handleProcessPayment_success s cmd order h ha hfresh
  exact ⟨herr, hpay, rfl, rfl, hord⟩

/-- C10 witness: paying the concrete unpaid order at its exact total. -/
theorem C10_witness :
    (handleProcessPayment unpaidState ⟨0, ratTotal⟩).err = none ∧
    (handleProcessPayment unpaidState ⟨0, ratTotal⟩).state.payments
      = unpaidState.payments ++ [completedPaymentOf unpaidState ⟨0, ratTotal⟩] ∧
    (completedPaymentOf unpaidState ⟨0, ratTotal⟩).status = PaymentStatus.completed ∧
    (completedPaymentOf unpaidState ⟨0, ratTotal⟩).processedAt = some unpaidState.now ∧
    findOrder (handleProcessPayment unpaidState ⟨0, ratTotal⟩).state 0
      = some { pendingOrder with paymentStatus := PaymentStatus.completed } :=
  C10_unconditional_completion unpaidState ⟨0, ratTotal⟩ pendingOrder rfl rfl (by decide)

end ElectricityShop
